import Mathlib

/-!
Shallow embedding of the Paradox-localisation auto-translator
(`src/main.py`, `src/main_using_get_cantonese_yale.py`,
`src/Main_capitaliseFirstLetter.py`, `src/capitaliseFirstLetter.py`,
`src/remove_diacritics.py`).

Strings are modelled as `List Char`; Python string primitives
(`str.lstrip`, `str.strip`, `str.find`, `str.rfind`, slicing) are embedded
as executable Lean functions on `List Char`.  The external value
transformers (the OpenAI chat call, `pycantonese`) are modelled as abstract
functions `List Char → Option (List Char)` where `none` models a raised
exception and `some s` models a normal return of `s`.
-/

namespace AutoTranslator

/-- A Python `str`, modelled as its list of code points. -/
abbrev Str := List Char

/-- Characters Python's `str.lstrip()` / `str.strip()` treat as whitespace
(the Unicode whitespace set used by `str.isspace`). -/
def pyIsSpace (c : Char) : Bool :=
  c.val == 0x20 || (0x9 ≤ c.val && c.val ≤ 0xD) ||
  (0x1C ≤ c.val && c.val ≤ 0x1F) || c.val == 0x85 || c.val == 0xA0 ||
  c.val == 0x1680 || (0x2000 ≤ c.val && c.val ≤ 0x200A) ||
  c.val == 0x2028 || c.val == 0x2029 || c.val == 0x202F ||
  c.val == 0x205F || c.val == 0x3000

/-- Python `s.lstrip()`. -/
def pyLStrip (s : Str) : Str := s.dropWhile pyIsSpace

/-- Python `s.rstrip()`. -/
def pyRStrip (s : Str) : Str := (s.reverse.dropWhile pyIsSpace).reverse

/-- Python `s.strip()`. -/
def pyStrip (s : Str) : Str := pyRStrip (pyLStrip s)

/-- Index of the first occurrence of `c` in `s` (`None` if absent):
the helper behind Python `s.find(c)`. -/
def findCharIdx : Str → Char → Option Nat
  | [], _ => none
  | a :: as, c => if a = c then some 0 else (findCharIdx as c).map (· + 1)

/-- Python `s.find(c)`, with `none` for the `-1` "not found" result. -/
def pyFind (s : Str) (c : Char) : Option Nat := findCharIdx s c

/-- Python `s.find(c, start)`: index of the first occurrence of `c` at
position `start` or later. -/
def pyFindFrom (s : Str) (c : Char) (start : Nat) : Option Nat :=
  (findCharIdx (s.drop start) c).map (· + start)

/-- Python `s.rfind(c)`: index of the last occurrence of `c` in `s`. -/
def pyRFind : Str → Char → Option Nat
  | [], _ => none
  | a :: as, c =>
    match pyRFind as c with
    | some j => some (j + 1)
    | none => if a = c then some 0 else none

/-- Python slice `s[a:b]`. -/
def pySlice (s : Str) (a b : Nat) : Str := (s.take b).drop a

/-!
### LineCodec: `process_line` (`src/main.py` lines 115-168)

`process_line_core` is the parsing phase of `process_line`: it returns
`none` exactly on the passthrough paths (blank line, comment line, no
colon, no quote at or after the colon, last quote equal to first quote),
and otherwise `some (before, value, after)` where, in the source,

  before = line[: first_quote + 1]
  value  = line[first_quote + 1 : last_quote]
  after  = line[last_quote:]
-/

/-- Parsing phase of `process_line` (`src/main.py:135-159`). -/
def process_line_core (line : Str) : Option (Str × Str × Str) :=
  let stripped := pyLStrip line
  if stripped.isEmpty then none
  else if stripped.head? = some '#' then none
  else
    match pyFind line ':' with
    | none => none
    | some colon_index =>
      match pyFindFrom line '\"' colon_index with
      | none => none
      | some first_quote =>
        match pyRFind line '\"' with
        | none => none
        | some last_quote =>
          if last_quote = first_quote then none
          else
            some (line.take (first_quote + 1),
                  pySlice line (first_quote + 1) last_quote,
                  line.drop last_quote)

/-- `process_line` (`src/main.py:115-168`): rebuilds the line as
`before + replacer(value) + after` on parse success, and returns the line
unchanged on every passthrough path.  The replacer is invoked exactly when
`process_line_core` succeeds. -/
def process_line (line : Str) (replacer : Str → Str) : Str :=
  match process_line_core line with
  | none => line
  | some (before, value, after) => before ++ replacer value ++ after

/-!
### ResilientTransform wrappers (`replacewithrealname1`)

The external transformer is a `Str → Option Str`: `none` models a raised
exception, `some s` a normal return of `s`.
-/

/-- The OpenAI wrapper `replacewithrealname1` of `src/main.py:76-108`:
calls the model unconditionally; on exception (`none`) keeps the original;
strips the returned content and keeps the original if the stripped content
is empty. -/
def replacewithrealname1 (t : Str → Option Str) (original_text : Str) : Str :=
  match t original_text with
  | none => original_text
  | some content =>
    let new_text := pyStrip content
    if new_text.isEmpty then original_text else new_text

/-- `True` iff the call of `replacewithrealname1` on `original_text` prints
a diagnostic (`[WARN]` on empty stripped output at `src/main.py:93-97`,
`[ERROR]` on exception at `src/main.py:102-107`). -/
def replacer_diag (t : Str → Option Str) (original_text : Str) : Bool :=
  match t original_text with
  | none => true
  | some content => (pyStrip content).isEmpty

/-- `contains_cjk` (`src/main_using_get_cantonese_yale.py:38-40`):
any CJK Unified Ideograph, `"一" <= ch <= "鿿"`. -/
def contains_cjk (text : Str) : Bool :=
  text.any (fun ch => 0x4E00 ≤ ch.val && ch.val ≤ 0x9FFF)

/-- The Cantonese-Yale wrapper `replacewithrealname1` of
`src/main_using_get_cantonese_yale.py:55-87`: skips empty/whitespace-only
values, skips values without CJK characters, otherwise calls
`get_cantonese_yale` (abstract `g`); on exception or empty result keeps
the original. -/
def replacewithrealname1_yale (g : Str → Option Str) (original_text : Str) : Str :=
  if (pyStrip original_text).isEmpty then original_text
  else if !contains_cjk original_text then original_text
  else
    match g original_text with
    | none => original_text
    | some yale => if yale.isEmpty then original_text else yale

/-- `capitalise_first_letter` (`src/capitaliseFirstLetter.py:10-21`):
uppercases the first character, keeps the rest. -/
def capitalise_first_letter (text : Str) : Str :=
  match text with
  | [] => []
  | c :: rest => c.toUpper :: rest

/-- The capitalisation wrapper `replacewithrealname1` of
`src/Main_capitaliseFirstLetter.py:45-57`: skips only exactly-empty
values, otherwise calls `capitalise_first_letter` (which cannot raise). -/
def replacewithrealname1_cap (original_text : Str) : Str :=
  if original_text.isEmpty then original_text
  else capitalise_first_letter original_text

/-!
### StreamProcessor: `process_file_streaming` (`src/main.py:173-192`)

The file is modelled as its list of lines (each line carrying its own
terminator, as produced by iterating a Python text file).  The loop body
writes `process_line(line, replacer)` and prints a per-line "updated"
message when the processed line differs; the function body contains no
`return` statement, so its Python return value is `None`.
-/

/-- The loop of `process_file_streaming` (`src/main.py:187-192`), started
at `line_number = n`: returns the written output lines together with the
line numbers for which an "updated" message is printed. -/
def streamLoop (replacer : Str → Str) : Nat → List Str → List Str × List Nat
  | _, [] => ([], [])
  | line_number, line :: rest =>
    let new_line := process_line line replacer
    let r := streamLoop replacer (line_number + 1) rest
    (new_line :: r.1, (if new_line ≠ line then [line_number] else []) ++ r.2)

/-- The lines written by `process_file_streaming`. -/
def process_file_out (lines : List Str) (replacer : Str → Str) : List Str :=
  (streamLoop replacer 1 lines).1

/-- The line numbers `process_file_streaming` reports as updated. -/
def process_file_updated (lines : List Str) (replacer : Str → Str) : List Nat :=
  (streamLoop replacer 1 lines).2

/-- Modelled from the spec: the `LineStats` record of the StreamProcessor
contract (`process(input, output) -> LineStats`, total and changed line
counts).  No such type exists in the source. -/
structure LineStats where
  total : Nat
  changed : Nat
deriving DecidableEq

/-- The Python return value of `process_file_streaming`
(`src/main.py:173-192`): the function body has no `return` statement, so
it returns `None` — modelled as `none : Option LineStats` — for every
input and every replacer. -/
def process_file_ret (lines : List Str) (replacer : Str → Str) :
    Option LineStats :=
  match process_file_out lines replacer with
  | _ => none

/-- Number of diagnostics printed by the OpenAI wrapper while processing
one file: one per line whose value parse succeeds and on whose extracted
value the wrapper prints (`src/main.py:93-107` inside
`src/main.py:187-189`). -/
def fileDiagCount (t : Str → Option Str) : List Str → Nat
  | [] => 0
  | line :: rest =>
    (match process_line_core line with
     | none => 0
     | some (_, value, _) => if replacer_diag t value then 1 else 0) +
    fileDiagCount t rest

/-!
### BatchOrchestrator: `process_folder` (`src/main.py:195-230`)

A directory entry is a name paired with an `is_file` flag; a file to be
read is `some lines` when it opens, `none` when opening raises
(missing file, permission error).
-/

/-- Python `chr.lower()` restricted to the ASCII letters (the only case
mapping the `.yml`/`.yaml` comparison can exercise). -/
def pyLowerChar (c : Char) : Char :=
  if 0x41 ≤ c.val && c.val ≤ 0x5A then Char.ofNat (c.toNat + 0x20) else c

/-- Python `s.lower()` (ASCII fragment). -/
def pyLower (s : Str) : Str := s.map pyLowerChar

/-- Python `PurePath.suffix` of a file name: `name[i:]` where `i` is the
index of the last dot, provided `0 < i < len(name) - 1`, else the empty
string. -/
def pySuffix (name : Str) : Str :=
  match pyRFind name '.' with
  | none => []
  | some i => if 0 < i ∧ i < name.length - 1 then name.drop i else []

/-- The eligibility test of `src/main.py:210-214`:
`f.is_file() and f.suffix.lower() in {".yml", ".yaml"}`. -/
def eligibleEntry (e : Str × Bool) : Bool :=
  e.2 && (pyLower (pySuffix e.1) = ('.' :: ['y', 'm', 'l']) ||
          pyLower (pySuffix e.1) = ('.' :: ['y', 'a', 'm', 'l']))

/-- Lexicographic code-point order on strings: Python `sorted` on the
equal-directory `Path` values of `src/main.py:210` compares their
name strings this way. -/
def strLe : Str → Str → Bool
  | [], _ => true
  | _ :: _, [] => false
  | a :: as, b :: bs =>
    if a.toNat < b.toNat then true
    else if b.toNat < a.toNat then false
    else strLe as bs

/-- The sorted list of names `process_folder` selects
(`src/main.py:210-214`). -/
def selectedFiles (entries : List (Str × Bool)) : List Str :=
  List.insertionSort (fun a b => strLe a b = true)
    ((entries.filter eligibleEntry).map Prod.fst)

/-- Outcome of one `process_folder` run. -/
structure FolderRun where
  /-- `output_dir.mkdir(parents=True, exist_ok=True)` was executed. -/
  outputDirCreated : Bool
  /-- Names of the selected files, in processing order. -/
  files : List Str
deriving DecidableEq

/-- `process_folder` (`src/main.py:195-230`) up to its per-file loop:
`none` models `sys.exit(1)` when the input directory is missing; otherwise
the output directory is created and the selected files are processed in
sorted order (the empty selection prints a notice and returns). -/
def process_folder_run (input_dir_exists : Bool) (entries : List (Str × Bool)) :
    Option FolderRun :=
  if !input_dir_exists then none
  else some ⟨true, selectedFiles entries⟩

/-- The per-file loop of `process_folder` (`src/main.py:225-228`), given
each selected file's readable content (`none` = opening the file raises):
returns the outputs of the files actually processed and whether the loop
was aborted by an uncaught exception.  The loop body has no
`try`/`except`, so the first failing file raises out of the loop and the
remaining files are never processed. -/
def folderLoop (replacer : Str → Str) :
    List (Option (List Str)) → List (List Str) × Bool
  | [] => ([], false)
  | none :: _ => ([], true)
  | some lines :: rest =>
    let r := folderLoop replacer rest
    (process_file_out lines replacer :: r.1, r.2)

/-!
### `remove_diacritics` (`src/remove_diacritics.py:12-31`)

`unicodedata.normalize("NFD", ·)`, `unicodedata.normalize("NFC", ·)` and
the category test `unicodedata.category(ch) == "Mn"` are external library
functions; they are abstracted as parameters `nfd`, `nfc`, `isMn`.
-/

/-- `remove_diacritics` (`src/remove_diacritics.py:12-31`): NFD-decompose,
drop all combining marks (category `Mn`), recompose to NFC. -/
def remove_diacritics (nfd nfc : Str → Str) (isMn : Char → Bool)
    (text : Str) : Str :=
  nfc ((nfd text).filter (fun ch => !isMn ch))

/-!
## Helper lemmas about the Python string primitives
-/

lemma findCharIdx_some {s : Str} {c : Char} {i : Nat}
    (h : findCharIdx s c = some i) :
    ∃ hi : i < s.length, s[i] = c := by
  induction s generalizing i with
  | nil => simp [findCharIdx] at h
  | cons a as ih =>
    by_cases hac : a = c
    · simp only [findCharIdx, if_pos hac, Option.some.injEq] at h
      subst h
      exact ⟨by simp, hac⟩
    · simp only [findCharIdx, if_neg hac, Option.map_eq_some'] at h
      obtain ⟨j, hj, hji⟩ := h
      obtain ⟨hjl, hget⟩ := ih hj
      subst hji
      exact ⟨by simpa using Nat.succ_lt_succ hjl, by simpa using hget⟩

lemma pyRFind_some {s : Str} {c : Char} {j : Nat}
    (h : pyRFind s c = some j) :
    ∃ hj : j < s.length, s[j] = c := by
  induction s generalizing j with
  | nil => simp [pyRFind] at h
  | cons a as ih =>
    cases hr : pyRFind as c with
    | some j0 =>
      simp only [pyRFind, hr, Option.some.injEq] at h
      subst h
      obtain ⟨hl, hg⟩ := ih hr
      exact ⟨by simpa using Nat.succ_lt_succ hl, by simpa using hg⟩
    | none =>
      simp only [pyRFind, hr] at h
      by_cases hac : a = c
      · simp only [if_pos hac, Option.some.injEq] at h
        subst h
        exact ⟨by simp, hac⟩
      · simp [if_neg hac] at h

lemma pyRFind_none {s : Str} {c : Char} (h : pyRFind s c = none) : c ∉ s := by
  induction s with
  | nil => simp
  | cons a as ih =>
    cases hr : pyRFind as c with
    | some j0 => simp [pyRFind, hr] at h
    | none =>
      simp only [pyRFind, hr] at h
      by_cases hac : a = c
      · simp [if_pos hac] at h
      · intro hmem
        rcases List.mem_cons.mp hmem with h1 | h2
        · exact hac h1.symm
        · exact ih hr h2

lemma pyRFind_ge {s : Str} {c : Char} {j : Nat}
    (h : pyRFind s c = some j) :
    ∀ k, (hk : k < s.length) → s[k] = c → k ≤ j := by
  induction s generalizing j with
  | nil => intro k hk; simp at hk
  | cons a as ih =>
    cases hr : pyRFind as c with
    | some j0 =>
      simp only [pyRFind, hr, Option.some.injEq] at h
      subst h
      intro k hk hkc
      match k with
      | 0 => omega
      | k + 1 =>
        have := ih hr k (by simpa using Nat.lt_of_succ_lt_succ hk)
          (by simpa using hkc)
        omega
    | none =>
      simp only [pyRFind, hr] at h
      by_cases hac : a = c
      · simp only [if_pos hac, Option.some.injEq] at h
        subst h
        intro k hk hkc
        match k with
        | 0 => omega
        | k + 1 =>
          have hk2 : k < as.length := by simpa using Nat.lt_of_succ_lt_succ hk
          have hkc2 : as[k] = c := by simpa using hkc
          exact absurd (hkc2 ▸ List.getElem_mem hk2) (pyRFind_none hr)
      · simp [if_neg hac] at h

lemma pyFindFrom_some {s : Str} {c : Char} {st i : Nat}
    (h : pyFindFrom s c st = some i) :
    st ≤ i ∧ ∃ hi : i < s.length, s[i] = c := by
  simp only [pyFindFrom, Option.map_eq_some'] at h
  obtain ⟨j, hj, hji⟩ := h
  obtain ⟨hjl, hg⟩ := findCharIdx_some hj
  have hlen : (s.drop st).length = s.length - st := List.length_drop st s
  have hi2 : st + j = i := by omega
  subst hi2
  refine ⟨by omega, by rw [List.length_drop] at hjl; omega, ?_⟩
  rw [← List.getElem_drop]
  exact hg

lemma take_slice_drop (s : Str) (a b : Nat) (hab : a ≤ b) :
    s.take a ++ pySlice s a b ++ s.drop b = s := by
  have h1 : (s.take b).take a = s.take a := by
    rw [List.take_take, Nat.min_eq_left hab]
  show s.take a ++ (s.take b).drop a ++ s.drop b = s
  rw [← h1, List.take_append_drop, List.take_append_drop]

lemma two_le_count_of_two_getElem {s : Str} {c : Char} {i j : Nat}
    (hij : i < j) (hjl : j < s.length) (hil : i < s.length)
    (hi : s[i] = c) (hj : s[j] = c) :
    2 ≤ s.count c := by
  have hdrop : s.drop j = c :: s.drop (j + 1) := by
    rw [List.drop_eq_getElem_cons hjl, hj]
  have hmem : c ∈ s.take j := by
    have hlt : i < (s.take j).length := by
      rw [List.length_take]; omega
    have hgt : (s.take j)[i] = c := by
      rw [List.getElem_take]; exact hi
    exact hgt ▸ List.getElem_mem hlt
  have h1 : 1 ≤ (s.take j).count c := List.count_pos_iff.mpr hmem
  have h2 : 1 ≤ (s.drop j).count c := by
    rw [hdrop, List.count_cons_self]; omega
  have hsum : s.count c = (s.take j).count c + (s.drop j).count c := by
    rw [← List.count_append, List.take_append_drop]
  omega

/-!
## Structure of a successful line parse
-/

lemma process_line_core_eq_some {line before value after : Str}
    (h : process_line_core line = some (before, value, after)) :
    ∃ ci fq lq, pyFind line ':' = some ci ∧
      pyFindFrom line '\"' ci = some fq ∧ pyRFind line '\"' = some lq ∧
      lq ≠ fq ∧ before = line.take (fq + 1) ∧
      value = pySlice line (fq + 1) lq ∧ after = line.drop lq := by
  simp only [process_line_core] at h
  split at h
  · exact absurd h (by simp)
  split at h
  · exact absurd h (by simp)
  split at h
  · exact absurd h (by simp)
  rename_i ci hci
  split at h
  · exact absurd h (by simp)
  rename_i fq hf
  split at h
  · exact absurd h (by simp)
  rename_i lq hl
  split at h
  · exact absurd h (by simp)
  rename_i hne
  simp only [Option.some.injEq, Prod.mk.injEq] at h
  exact ⟨ci, fq, lq, hci, hf, hl, hne, h.1.symm, h.2.1.symm, h.2.2.symm⟩

lemma first_lt_last {line : Str} {ci fq lq : Nat}
    (hf : pyFindFrom line '\"' ci = some fq) (hl : pyRFind line '\"' = some lq)
    (hne : lq ≠ fq) : fq < lq := by
  obtain ⟨hcf, hfl, hfq⟩ := pyFindFrom_some hf
  have hle := pyRFind_ge hl fq hfl hfq
  omega

lemma process_line_core_append {line before value after : Str}
    (h : process_line_core line = some (before, value, after)) :
    before ++ value ++ after = line := by
  obtain ⟨ci, fq, lq, hci, hf, hl, hne, hb, hv, ha⟩ := process_line_core_eq_some h
  subst hb; subst hv; subst ha
  have hlt : fq < lq := first_lt_last hf hl hne
  exact take_slice_drop line (fq + 1) lq (by omega)

lemma process_line_of_pointwise_id {r : Str → Str} (hr : ∀ v, r v = v)
    (line : Str) : process_line line r = line := by
  unfold process_line
  cases hc : process_line_core line with
  | none => rfl
  | some p =>
    obtain ⟨b, v, a⟩ := p
    show b ++ r v ++ a = line
    rw [hr v]
    exact process_line_core_append hc

lemma process_line_id (line : Str) : process_line line (fun s => s) = line :=
  process_line_of_pointwise_id (fun _ => rfl) line

lemma streamLoop_of_pointwise_id {r : Str → Str} (hr : ∀ v, r v = v)
    (n : Nat) (lines : List Str) : streamLoop r n lines = (lines, []) := by
  induction lines generalizing n with
  | nil => rfl
  | cons l rest ih =>
    simp [streamLoop, process_line_of_pointwise_id hr, ih]

lemma streamLoop_id (n : Nat) (lines : List Str) :
    streamLoop (fun s => s) n lines = (lines, []) :=
  streamLoop_of_pointwise_id (fun _ => rfl) n lines

lemma streamLoop_length (r : Str → Str) (n : Nat) (lines : List Str) :
    (streamLoop r n lines).1.length = lines.length := by
  induction lines generalizing n with
  | nil => rfl
  | cons l rest ih => simp [streamLoop, ih]

lemma streamLoop_updated_length (r : Str → Str) (n : Nat) (lines : List Str) :
    (streamLoop r n lines).2.length =
      (lines.filter (fun l => process_line l r ≠ l)).length := by
  induction lines generalizing n with
  | nil => rfl
  | cons l rest ih =>
    simp only [streamLoop, List.filter]
    by_cases hc : process_line l r = l
    · simp [hc, ih]
    · simp [hc, ih]

lemma two_le_count_of_getElemOpt {s : Str} {c : Char} {i j : Nat}
    (hij : i < j) (hi : s[i]? = some c) (hj : s[j]? = some c) :
    2 ≤ s.count c := by
  rw [List.getElem?_eq_some] at hi hj
  obtain ⟨hil, hie⟩ := hi
  obtain ⟨hjl, hje⟩ := hj
  exact two_le_count_of_two_getElem hij hjl hil hie hje

/-- Every passthrough condition of `process_line` makes the parse fail. -/
lemma process_line_core_none_of_passthrough {line : Str}
    (h : pyLStrip line = [] ∨ (pyLStrip line).head? = some '#' ∨
         pyFind line ':' = none ∨
         ∃ ci, pyFind line ':' = some ci ∧ (line.drop ci).count '\"' < 2) :
    process_line_core line = none := by
  rcases h with h1 | h2 | h3 | ⟨ci, hci, hcount⟩
  · simp [process_line_core, h1]
  · by_cases he : (pyLStrip line).isEmpty
    · simp [process_line_core, he]
    · simp [process_line_core, he, h2]
  · by_cases he : (pyLStrip line).isEmpty
    · simp [process_line_core, he]
    by_cases hh : (pyLStrip line).head? = some '#'
    · simp [process_line_core, he, hh]
    simp [process_line_core, he, hh, h3]
  · by_cases he : (pyLStrip line).isEmpty
    · simp [process_line_core, he]
    by_cases hh : (pyLStrip line).head? = some '#'
    · simp [process_line_core, he, hh]
    cases hf : pyFindFrom line '\"' ci with
    | none => simp [process_line_core, he, hh, hci, hf]
    | some fq =>
    cases hl : pyRFind line '\"' with
    | none => simp [process_line_core, he, hh, hci, hf, hl]
    | some lq =>
    by_cases hne : lq = fq
    · simp [process_line_core, he, hh, hci, hf, hl, hne]
    exfalso
    have hlt : fq < lq := first_lt_last hf hl hne
    obtain ⟨hcf, hfl, hfq⟩ := pyFindFrom_some hf
    obtain ⟨hll, hlq⟩ := pyRFind_some hl
    have e1 : ci + (fq - ci) = fq := by omega
    have e2 : ci + (lq - ci) = lq := by omega
    have hq1 : (line.drop ci)[fq - ci]? = some '\"' := by
      rw [List.getElem?_drop, e1]
      exact List.getElem?_eq_some.mpr ⟨hfl, hfq⟩
    have hq2 : (line.drop ci)[lq - ci]? = some '\"' := by
      rw [List.getElem?_drop, e2]
      exact List.getElem?_eq_some.mpr ⟨hll, hlq⟩
    have := two_le_count_of_getElemOpt (by omega) hq1 hq2
    omega

/-!
## Claim theorems
-/

/-- C1: for every line that is not a passthrough line (its parse
`process_line_core` succeeds), the extracted parts satisfy
`before ++ value ++ after = line`; rebuilding with the identity
transformer returns the line byte-identically; and with the identity
transformer the whole output file equals the input file. -/
theorem C1_parse_rebuild_roundtrip (line before value after : Str)
    (lines : List Str)
    (h : process_line_core line = some (before, value, after)) :
    before ++ value ++ after = line ∧
    process_line line (fun s => s) = line ∧
    process_file_out lines (fun s => s) = lines := by
  refine ⟨process_line_core_append h, process_line_id line, ?_⟩
  unfold process_file_out
  rw [streamLoop_id]

/-- Witness for C1 at the concrete line `k: "v"` and the one-line file
containing it. -/
theorem C1_parse_rebuild_roundtrip_witness :
    ['k', ':', ' ', '\"'] ++ ['v'] ++ ['\"'] = ['k', ':', ' ', '\"', 'v', '\"'] ∧
    process_line ['k', ':', ' ', '\"', 'v', '\"'] (fun s => s) =
      ['k', ':', ' ', '\"', 'v', '\"'] ∧
    process_file_out [['k', ':', ' ', '\"', 'v', '\"']] (fun s => s) =
      [['k', ':', ' ', '\"', 'v', '\"']] :=
  C1_parse_rebuild_roundtrip ['k', ':', ' ', '\"', 'v', '\"']
    ['k', ':', ' ', '\"'] ['v'] ['\"'] [['k', ':', ' ', '\"', 'v', '\"']]
    (by decide)

/-- C2: every input line that is blank, whose first non-whitespace
character is `#`, that contains no `:`, or that has fewer than two `"`
characters at or after the first `:`, is returned byte-identical by
`process_line` for every replacer, and the parse fails
(`process_line_core = none`), so the replacer — which `process_line`
applies only on parse success — is not invoked. -/
theorem C2_passthrough_identity (line : Str) (r : Str → Str)
    (h : pyLStrip line = [] ∨ (pyLStrip line).head? = some '#' ∨
         pyFind line ':' = none ∨
         ∃ ci, pyFind line ':' = some ci ∧ (line.drop ci).count '\"' < 2) :
    process_line line r = line ∧ process_line_core line = none := by
  have hcore := process_line_core_none_of_passthrough h
  constructor
  · unfold process_line
    rw [hcore]
  · exact hcore

/-- Witness for C2 at the comment line `#x` and a constant replacer. -/
theorem C2_passthrough_identity_witness :
    process_line ['#', 'x'] (fun _ => ['Z']) = ['#', 'x'] ∧
    process_line_core ['#', 'x'] = none :=
  C2_passthrough_identity ['#', 'x'] (fun _ => ['Z'])
    (Or.inr (Or.inl (by decide)))

/-- C3: on every value for which the transformer raises (`none`) or
returns output that strips to empty, the OpenAI wrapper returns the
original value unchanged; the wrapper is a total function, so the failure
never propagates — the file keeps being processed (one output line per
input line) and so does the batch. -/
theorem C3_wrapper_preserves_value_on_failure (t : Str → Option Str)
    (v : Str) (lines : List Str)
    (h : t v = none ∨ ∃ s, t v = some s ∧ (pyStrip s).isEmpty) :
    replacewithrealname1 t v = v ∧
    (process_file_out lines (replacewithrealname1 t)).length = lines.length := by
  constructor
  · unfold replacewithrealname1
    rcases h with h1 | ⟨s, hs, hse⟩
    · rw [h1]
    · rw [hs]
      simp [hse]
  · exact streamLoop_length (replacewithrealname1 t) 1 lines

/-- Witness for C3: an always-raising transformer on the value `a` and
the one-line file `#x`. -/
theorem C3_wrapper_preserves_value_on_failure_witness :
    replacewithrealname1 (fun _ => none) ['a'] = ['a'] ∧
    (process_file_out [['#', 'x']]
      (replacewithrealname1 (fun _ => none))).length = [['#', 'x']].length :=
  C3_wrapper_preserves_value_on_failure (fun _ => none) ['a'] [['#', 'x']]
    (Or.inl rfl)

/-- C4 counterexample: the claim fails on the OpenAI wrapper of
`src/main.py` (one of the three wrappers it quantifies over): on the
whitespace-only value `" "` the transformer IS invoked and its output
`"X"` is returned instead of the original value. -/
theorem C4_counterexample_openai_wrapper_no_guard :
    replacewithrealname1 (fun _ => some ['X']) [' '] = ['X'] ∧
    ['X'] ≠ [' '] := by decide

/-- C4 amended: the empty/whitespace-only guard exists only in the
Cantonese-Yale wrapper: it returns such a value as-is with a result
independent of the transformer (the transformer is not invoked); the
capitalisation wrapper guards only the exactly-empty value; the OpenAI
wrapper of `src/main.py` has no such guard. -/
theorem C4_amended_empty_value_guard (g1 g2 : Str → Option Str) (v : Str)
    (h : (pyStrip v).isEmpty) :
    replacewithrealname1_yale g1 v = v ∧
    replacewithrealname1_yale g1 v = replacewithrealname1_yale g2 v ∧
    (v.isEmpty → replacewithrealname1_cap v = v) := by
  unfold replacewithrealname1_yale replacewithrealname1_cap
  refine ⟨by simp [h], by simp [h], ?_⟩
  intro hv
  simp [hv]

/-- Witness for C4 amended at the whitespace-only value `" "` and two
transformers that disagree everywhere. -/
theorem C4_amended_empty_value_guard_witness :
    replacewithrealname1_yale (fun _ => some ['X']) [' '] = [' '] ∧
    replacewithrealname1_yale (fun _ => some ['X']) [' '] =
      replacewithrealname1_yale (fun _ => none) [' '] ∧
    (([' '] : Str).isEmpty = true → replacewithrealname1_cap [' '] = [' ']) :=
  C4_amended_empty_value_guard (fun _ => some ['X']) (fun _ => none) [' ']
    (by decide)

/-- C9: the Cantonese-Yale replacer is the identity on every value
containing no CJK Unified Ideograph (U+4E00..U+9FFF), and its result does
not depend on the transliteration function — the service is not
invoked. -/
theorem C9_non_cjk_identity (g1 g2 : Str → Option Str) (v : Str)
    (h : contains_cjk v = false) :
    replacewithrealname1_yale g1 v = v ∧
    replacewithrealname1_yale g1 v = replacewithrealname1_yale g2 v := by
  unfold replacewithrealname1_yale
  by_cases he : (pyStrip v).isEmpty
  · simp [he]
  · simp [he, h]

/-- Witness for C9 at the non-CJK value `ab` and two transliteration
functions that disagree everywhere. -/
theorem C9_non_cjk_identity_witness :
    replacewithrealname1_yale (fun _ => some ['X']) ['a', 'b'] = ['a', 'b'] ∧
    replacewithrealname1_yale (fun _ => some ['X']) ['a', 'b'] =
      replacewithrealname1_yale (fun _ => none) ['a', 'b'] :=
  C9_non_cjk_identity (fun _ => some ['X']) (fun _ => none) ['a', 'b']
    (by decide)

/-- C5 counterexample: `process_file_streaming` has no `return`
statement; at the concrete one-line file its return value is `None` —
no `LineStats` value is returned. -/
theorem C5_counterexample_returns_none :
    process_file_ret [['#', 'x']] (fun s => s) = none := rfl

/-- C5 amended: `process_file_streaming` returns `None` for every input
file and replacer; the per-file counts exist only observably: it writes
exactly one output line per input line and prints exactly one update
message per changed line (so total and changed counts are visible in the
log but not returned). -/
theorem C5_amended_streaming_observables (lines : List Str) (r : Str → Str) :
    process_file_ret lines r = none ∧
    (process_file_out lines r).length = lines.length ∧
    (process_file_updated lines r).length =
      (lines.filter (fun l => process_line l r ≠ l)).length :=
  ⟨rfl, streamLoop_length r 1 lines, streamLoop_updated_length r 1 lines⟩

/-- C6 counterexample: in a batch whose first file fails to open and
whose second file is readable, the per-file loop of `process_folder`
(which has no exception handling) aborts the whole run: the second file
is never processed. -/
theorem C6_counterexample_batch_aborts :
    folderLoop (fun s => s) [none, some [['#', 'x']]] = ([], true) := rfl

/-- C6 amended: an input file that fails to open surfaces as an uncaught
exception out of `process_file_streaming`; every earlier (readable) file
of the batch is processed, but the failing file and all files after it
are not: the whole batch run aborts. -/
theorem C6_amended_first_failure_aborts (r : Str → Str)
    (pre : List (List Str)) (rest : List (Option (List Str))) :
    folderLoop r (pre.map some ++ none :: rest) =
      (pre.map (fun lines => process_file_out lines r), true) := by
  induction pre with
  | nil => rfl
  | cons p ps ih => simp [folderLoop, ih]

lemma replacewithrealname1_of_fail {t : Str → Option Str}
    (h : ∀ v, t v = none) (v : Str) : replacewithrealname1 t v = v := by
  unfold replacewithrealname1
  rw [h v]

lemma fileDiagCount_of_fail {t : Str → Option Str} (h : ∀ v, t v = none)
    (lines : List Str) : fileDiagCount t lines =
      (lines.filter (fun l => (process_line_core l).isSome)).length := by
  induction lines with
  | nil => rfl
  | cons l rest ih =>
    simp only [fileDiagCount, List.filter]
    cases hc : process_line_core l with
    | none => simp [hc, ih]
    | some p =>
      obtain ⟨b, v, a⟩ := p
      simp [hc, replacer_diag, h v, ih]
      omega

/-- C7 amended: for every transformer that fails on every invocation, the
produced output file is byte-identical to the input file, and exactly one
diagnostic is recorded per parsed value — one per line whose parse
succeeds, including lines whose extracted value is empty (the
`src/main.py` wrapper calls the transformer unconditionally). -/
theorem C7_amended_always_failing_transformer (t : Str → Option Str)
    (lines : List Str) (h : ∀ v, t v = none) :
    process_file_out lines (replacewithrealname1 t) = lines ∧
    fileDiagCount t lines =
      (lines.filter (fun l => (process_line_core l).isSome)).length := by
  constructor
  · unfold process_file_out
    rw [streamLoop_of_pointwise_id (replacewithrealname1_of_fail h) 1 lines]
  · exact fileDiagCount_of_fail h lines

/-- Witness for C7 at the one-line file `a:""` with an always-raising
transformer. -/
theorem C7_amended_always_failing_transformer_witness :
    process_file_out [['a', ':', '\"', '\"']]
      (replacewithrealname1 (fun _ => none)) = [['a', ':', '\"', '\"']] ∧
    fileDiagCount (fun _ => none) [['a', ':', '\"', '\"']] =
      ([['a', ':', '\"', '\"']].filter
        (fun l => (process_line_core l).isSome)).length :=
  C7_amended_always_failing_transformer (fun _ => none)
    [['a', ':', '\"', '\"']] (fun _ => rfl)

/-- C7 counterexample: on the file with the single line `a:""`, whose
extracted value is empty, an always-failing transformer records one
diagnostic — not zero, as the claim predicts for empty values. -/
theorem C7_counterexample_diag_on_empty_value :
    process_line_core ['a', ':', '\"', '\"'] =
      some (['a', ':', '\"'], [], ['\"']) ∧
    fileDiagCount (fun _ => none) [['a', ':', '\"', '\"']] = 1 := by decide

lemma strLe_total (a b : Str) : strLe a b = true ∨ strLe b a = true := by
  induction a generalizing b with
  | nil => left; rfl
  | cons x xs ih =>
    cases b with
    | nil => right; rfl
    | cons y ys =>
      by_cases h1 : x.toNat < y.toNat
      · left; simp [strLe, h1]
      · by_cases h2 : y.toNat < x.toNat
        · right; simp [strLe, h2]
        · rcases ih ys with h | h
          · left; simpa [strLe, h1, h2] using h
          · right; simpa [strLe, h2, h1] using h

lemma strLe_trans {a b c : Str} (h1 : strLe a b = true)
    (h2 : strLe b c = true) : strLe a c = true := by
  induction a generalizing b c with
  | nil => rfl
  | cons x xs ih =>
    cases b with
    | nil => simp [strLe] at h1
    | cons y ys =>
      cases c with
      | nil => simp [strLe] at h2
      | cons z zs =>
        simp only [strLe] at h1 h2 ⊢
        by_cases hxy : x.toNat < y.toNat
        · by_cases hyz : y.toNat < z.toNat
          · simp [show x.toNat < z.toNat by omega]
          · by_cases hzy : z.toNat < y.toNat
            · rw [if_neg hyz, if_pos hzy] at h2
              exact absurd h2 (by simp)
            · simp [show x.toNat < z.toNat by omega]
        · by_cases hyx : y.toNat < x.toNat
          · rw [if_neg hxy, if_pos hyx] at h1
            exact absurd h1 (by simp)
          · by_cases hyz : y.toNat < z.toNat
            · simp [show x.toNat < z.toNat by omega]
            · by_cases hzy : z.toNat < y.toNat
              · rw [if_neg hyz, if_pos hzy] at h2
                exact absurd h2 (by simp)
              · rw [if_neg hxy, if_neg hyx] at h1
                rw [if_neg hyz, if_neg hzy] at h2
                rw [if_neg (show ¬x.toNat < z.toNat by omega),
                    if_neg (show ¬z.toNat < x.toNat by omega)]
                exact ih h1 h2

/-- C8: the batch orchestrator selects exactly the regular-file entries
of the input directory whose lowercased extension is `.yml` or `.yaml`
(`selectedFiles` is a permutation of the eligible entries), processes
them in sorted-by-name order, and when zero entries are eligible it
returns successfully with zero files after creating the output
directory. -/
theorem C8_folder_selection_and_order (entries : List (Str × Bool)) :
    (selectedFiles entries).Perm
      ((entries.filter eligibleEntry).map Prod.fst) ∧
    (selectedFiles entries).Sorted (fun a b => strLe a b = true) ∧
    (entries.filter eligibleEntry = [] →
      process_folder_run true entries = some ⟨true, []⟩) := by
  refine ⟨List.perm_insertionSort _ _,
    @List.sorted_insertionSort Str _ (fun _ _ => inferInstance)
      ⟨strLe_total⟩ ⟨fun _ _ _ hab hbc => strLe_trans hab hbc⟩ _, ?_⟩
  intro hemp
  simp [process_folder_run, selectedFiles, hemp]

/-- Witness for C8 at a directory holding one regular file `a.t` (an
ineligible extension), so that zero files are selected. -/
theorem C8_folder_selection_and_order_witness :
    (selectedFiles [(['a', '.', 't'], true)]).Perm
      (([(['a', '.', 't'], true)].filter eligibleEntry).map Prod.fst) ∧
    (selectedFiles [(['a', '.', 't'], true)]).Sorted
      (fun a b => strLe a b = true) ∧
    process_folder_run true [(['a', '.', 't'], true)] = some ⟨true, []⟩ :=
  ⟨(C8_folder_selection_and_order [(['a', '.', 't'], true)]).1,
   (C8_folder_selection_and_order [(['a', '.', 't'], true)]).2.1,
   (C8_folder_selection_and_order [(['a', '.', 't'], true)]).2.2 (by decide)⟩

/-- C10: `remove_diacritics` is idempotent.  The `unicodedata` backend is
abstract; the two hypotheses are the Unicode normalization facts the
function relies on: NFD is invariant under NFC (NFC preserves canonical
equivalence), and an NFD-normalized string with all `Mn` marks removed is
still NFD-normalized (its characters do not decompose to combining
marks). -/
theorem C10_remove_diacritics_idempotent (nfd nfc : Str → Str)
    (isMn : Char → Bool) (t : Str)
    (h1 : ∀ y, nfd (nfc y) = nfd y)
    (h2 : ∀ y, nfd ((nfd y).filter (fun ch => !isMn ch)) =
               (nfd y).filter (fun ch => !isMn ch)) :
    remove_diacritics nfd nfc isMn (remove_diacritics nfd nfc isMn t) =
      remove_diacritics nfd nfc isMn t := by
  unfold remove_diacritics
  rw [h1, h2, List.filter_filter]
  simp

/-- Witness for C10 on the ASCII fragment of Unicode, where NFD and NFC
are the identity and nothing is a combining mark. -/
theorem C10_remove_diacritics_idempotent_witness :
    remove_diacritics (fun s => s) (fun s => s) (fun _ => false)
      (remove_diacritics (fun s => s) (fun s => s) (fun _ => false) ['a']) =
      remove_diacritics (fun s => s) (fun s => s) (fun _ => false) ['a'] :=
  C10_remove_diacritics_idempotent (fun s => s) (fun s => s) (fun _ => false)
    ['a'] (fun _ => rfl) (fun _ => rfl)

end AutoTranslator
